import Mathlib

/-!
Shallow embedding of the paletter sources (src/src/script.jsx and the
unnamed variant src/unnamed/part_000) together with theorems settling the
specification claims about the shade transform, the list state helpers,
the cyclic format selector, the local-storage loader and the contrasting
foreground choice.

Numeric channel values of colors in LCH space are modelled as rationals,
which is exact for every computation the shade transform performs
(subtraction, absolute value, division by the constants 50 and 100).
The WCAG contrast computation uses real numbers because the sRGB
linearization raises to the real exponent 2.4.
-/

namespace Paletter

/-- A color expressed in LCH coordinates (lightness, chroma, hue), the
space in which the shade transform of the source operates after the
`new Color(color).to("lch")` conversion. -/
structure LCHColor where
  l : ℚ
  c : ℚ
  h : ℚ
deriving DecidableEq

/-- Embedding of getShadedColor from src/unnamed/part_000 lines 15-20:
lightness is overwritten with the requested shade and chroma is scaled by
1 - |shade - 50| / 50; the hue coordinate is not in the set call and is
left untouched. -/
def getShadedColor (color : LCHColor) (shade : ℚ) : LCHColor :=
  { l := shade
    c := color.c * (1 - |shade - 50| / 50)
    h := color.h }

/-- Embedding of getShadedColor from src/src/script.jsx lines 21-26, the
variant whose lightness update blends the requested shade with the base
lightness, l := s * (0.5 + l / 100).  The chroma update, the only part the
claims depend on, is identical to the other variant. -/
def getShadedColorBlend (color : LCHColor) (s : ℚ) : LCHColor :=
  { l := s * (1 / 2 + color.l / 100)
    c := color.c * (1 - |s - 50| / 50)
    h := color.h }

/-- Embedding of the colorTable memo from App in both variants: the
derived palette matrix, one outer entry per base color, one inner entry
per shade. -/
def colorTable (colors : List LCHColor) (shades : List ℚ) : List (List LCHColor) :=
  colors.map fun color => shades.map fun shade => getShadedColor color shade

/-- Embedding of push from useList in both variants: append at the end of
the list. -/
def push {α : Type} (l : List α) (v : α) : List α :=
  l ++ [v]

/-- Embedding of update from useList in both variants, the JavaScript
expression list.map((item, id) => (id === target ? value : item)).  The
target index is an integer so that negative indices can be discussed. -/
def update {α : Type} (l : List α) (target : Int) (v : α) : List α :=
  l.mapIdx fun id item => if (id : Int) = target then v else item

/-- Embedding of remove from useList in both variants, the JavaScript
expression list.filter((_, id) => id !== target), written with an explicit
index enumeration. -/
def remove {α : Type} (l : List α) (target : Int) : List α :=
  (l.enum.filter fun p => decide ((p.1 : Int) ≠ target)).map Prod.snd

theorem mapIdx_eq_self {α : Type} :
    ∀ (l : List α) (f : ℕ → α → α), (∀ i, i < l.length → ∀ a, f i a = a) →
      List.mapIdx f l = l := by
  intro l
  induction l with
  | nil => intro f _; rfl
  | cons a xs ih =>
      intro f hf
      rw [List.mapIdx_cons, hf 0 (by simp) a,
        ih _ (fun i hi b => hf (i + 1) (by simpa using Nat.succ_lt_succ hi) b)]

theorem filter_enumFrom_eq_self {α : Type} (t : Int) :
    ∀ (l : List α) (n : ℕ), (∀ i, i < l.length → ((n + i : ℕ) : Int) ≠ t) →
      ((List.enumFrom n l).filter fun p => decide ((p.1 : Int) ≠ t)).map Prod.snd = l := by
  intro l
  induction l with
  | nil => intro n _; rfl
  | cons a xs ih =>
      intro n h
      have h0 : ((n : ℕ) : Int) ≠ t := by simpa using h 0 (by simp)
      have hx : ((List.enumFrom (n + 1) xs).filter
          fun p => decide ((p.1 : Int) ≠ t)).map Prod.snd = xs := by
        refine ih (n + 1) (fun i hi => ?_)
        have e : n + 1 + i = n + (i + 1) := by omega
        rw [e]
        exact h (i + 1) (by simpa using Nat.succ_lt_succ hi)
      rw [List.enumFrom_cons]
      rw [List.filter_cons_of_pos (by simpa using h0)]
      rw [List.map_cons, hx]

theorem enumFrom_append_singleton {α : Type} (v : α) :
    ∀ (l : List α) (n : ℕ), List.enumFrom n (l ++ [v]) =
      List.enumFrom n l ++ [(n + l.length, v)] := by
  intro l
  induction l with
  | nil => intro n; simp
  | cons a xs ih =>
      intro n
      simp [List.enumFrom_cons, ih (n + 1)]
      omega

theorem update_out_of_range {α : Type} (l : List α) (t : Int) (v : α)
    (h : t < 0 ∨ (l.length : Int) ≤ t) : update l t v = l := by
  refine mapIdx_eq_self l _ (fun i hi a => ?_)
  have hne : ((i : ℕ) : Int) ≠ t := by
    rcases h with h | h
    · omega
    · have hi2 : (i : Int) < (l.length : Int) := by exact_mod_cast hi
      omega
  simp [hne]

theorem remove_out_of_range {α : Type} (l : List α) (t : Int)
    (h : t < 0 ∨ (l.length : Int) ≤ t) : remove l t = l := by
  show ((List.enumFrom 0 l).filter fun p => decide ((p.1 : Int) ≠ t)).map Prod.snd = l
  refine filter_enumFrom_eq_self t l 0 (fun i hi => ?_)
  rcases h with h | h
  · omega
  · have hi2 : (i : Int) < (l.length : Int) := by exact_mod_cast hi
    omega

/-- Claim C1, counterexample: for a base color of chroma 50 and percent
150 (outside [0, 100]) both source variants yield chroma -50, which is
negative, not 0: the scaling formula is applied with no clamping. -/
theorem getShadedColor_chroma_not_clamped :
    (getShadedColor ⟨50, 50, 0⟩ 150).c = -50 ∧
      (getShadedColor ⟨50, 50, 0⟩ 150).c < 0 ∧
      (getShadedColorBlend ⟨50, 50, 0⟩ 150).c = -50 := by
  have habs : |(150 : ℚ) - 50| = 100 := by
    rw [show (150 : ℚ) - 50 = 100 by norm_num]
    exact abs_of_nonneg (by norm_num)
  refine ⟨?_, ?_, ?_⟩ <;>
    simp only [getShadedColor, getShadedColorBlend, habs] <;> norm_num

/-- Claim C1 as amended: for every base color and every percent the shade
transform is defined and its chroma equals the base chroma times
1 - |percent - 50| / 50, with no clamping, in both source variants. -/
theorem getShadedColor_chroma_formula (c : LCHColor) (p : ℚ) :
    (getShadedColor c p).c = c.c * (1 - |p - 50| / 50) ∧
      (getShadedColorBlend c p).c = c.c * (1 - |p - 50| / 50) :=
  ⟨rfl, rfl⟩

/-- Claim C10: the shade transform never modifies the hue component in
either source variant; only lightness and chroma are set. -/
theorem getShadedColor_preserves_hue (c : LCHColor) (p : ℚ) :
    (getShadedColor c p).h = c.h ∧ (getShadedColorBlend c p).h = c.h :=
  ⟨rfl, rfl⟩

/-- Claim C7: shade at percent 50 keeps the chroma, shade at 0 and at 100
yields chroma 0, and the derived table for one base color and the shade
list [0, 50, 100] has exactly one column of three rows whose entries are
the three shaded colors in order. -/
theorem shade_scenario_spec (c : LCHColor) :
    (getShadedColor c 50).c = c.c ∧
      (getShadedColor c 0).c = 0 ∧
      (getShadedColor c 100).c = 0 ∧
      colorTable [c] [0, 50, 100] =
        [[getShadedColor c 0, getShadedColor c 50, getShadedColor c 100]] ∧
      (colorTable [c] [0, 50, 100]).length = 1 ∧
      (colorTable [c] [0, 50, 100]).map List.length = [3] := by
  have h50 : |(50 : ℚ) - 50| = 0 := by norm_num
  have h0 : |(0 : ℚ) - 50| = 50 := by
    rw [show (0 : ℚ) - 50 = -50 by norm_num, abs_neg]
    exact abs_of_nonneg (by norm_num)
  have h100 : |(100 : ℚ) - 50| = 50 := by
    rw [show (100 : ℚ) - 50 = 50 by norm_num]
    exact abs_of_nonneg (by norm_num)
  refine ⟨?_, ?_, ?_, rfl, rfl, rfl⟩
  · simp only [getShadedColor, h50]
    norm_num
  · simp only [getShadedColor, h0]
    norm_num
  · simp only [getShadedColor, h100]
    norm_num

/-- Claim C8: appending a value and then removing at the index of the
newly appended last element (the original length) restores the original
sequence exactly. -/
theorem push_remove_last_restores {α : Type} (l : List α) (v : α) :
    remove (push l v) (l.length : Int) = l := by
  show (((l ++ [v]).enum).filter
      fun p => decide ((p.1 : Int) ≠ (l.length : Int))).map Prod.snd = l
  have he : (l ++ [v]).enum = List.enumFrom 0 l ++ [(0 + l.length, v)] :=
    enumFrom_append_singleton v l 0
  rw [he, List.filter_append, List.map_append]
  have h1 : ((List.enumFrom 0 l).filter
      fun p => decide ((p.1 : Int) ≠ (l.length : Int))).map Prod.snd = l := by
    refine filter_enumFrom_eq_self _ l 0 (fun i hi => ?_)
    have hi2 : (i : Int) < (l.length : Int) := by exact_mod_cast hi
    omega
  have h2 : ([((0 + l.length : ℕ), v)].filter
      fun p => decide ((p.1 : Int) ≠ (l.length : Int))) = [] := by
    simp
  rw [h1, h2]
  simp

/-- Claim C8 witness at a concrete list and value. -/
theorem push_remove_last_restores_witness :
    remove (push [1, 2, 3] (9 : ℕ)) (([1, 2, 3] : List ℕ).length : Int) = [1, 2, 3] :=
  push_remove_last_restores [1, 2, 3] 9

/-- Claim C2, counterexample: at the out-of-range index 5 of a two element
list, update and remove succeed and return the unchanged list instead of
failing; the source defines them as total functions with no error path,
so no IndexOutOfRange failure ever occurs. -/
theorem update_remove_out_of_range_succeed :
    update [10, 20] (5 : Int) (99 : ℕ) = [10, 20] ∧
      remove [10, 20] (5 : Int) = [10, 20] :=
  ⟨update_out_of_range _ _ _ (Or.inr (by decide)),
    remove_out_of_range _ _ (Or.inr (by decide))⟩

/-- Claim C2 as amended: for every index outside [0, length), update and
remove succeed and return the original sequence unchanged, a silent
no-op; no IndexOutOfRange error is raised. -/
theorem update_remove_out_of_range_noop {α : Type} (l : List α) (t : Int) (v : α)
    (h : t < 0 ∨ (l.length : Int) ≤ t) :
    update l t v = l ∧ remove l t = l :=
  ⟨update_out_of_range l t v h, remove_out_of_range l t h⟩

/-- Claim C2 witness at a concrete list and out-of-range index. -/
theorem update_remove_out_of_range_noop_witness :
    ((2 : Int) < 0 ∨ ((([4, 5] : List ℕ).length : Int) ≤ 2)) ∧
      (update [4, 5] (2 : Int) (9 : ℕ) = [4, 5] ∧ remove [4, 5] (2 : Int) = [4, 5]) :=
  ⟨Or.inr (by decide), update_remove_out_of_range_noop [4, 5] 2 9 (Or.inr (by decide))⟩

/-- Claim C9: for every index outside [0, length), update and remove
return a sequence with exactly the same elements in the same order as
before, leaving the state unchanged with no error raised. -/
theorem update_remove_invalid_index_identity {α : Type} (l : List α) (i : Int) (v : α)
    (h : ¬(0 ≤ i ∧ i < (l.length : Int))) :
    update l i v = l ∧ remove l i = l := by
  have h2 : i < 0 ∨ (l.length : Int) ≤ i := by omega
  exact ⟨update_out_of_range l i v h2, remove_out_of_range l i h2⟩

/-- Claim C9 witness at a concrete list and the negative index -1. -/
theorem update_remove_invalid_index_identity_witness :
    (¬((0 : Int) ≤ -1 ∧ (-1 : Int) < (([1, 2, 3] : List ℕ).length : Int))) ∧
      (update [1, 2, 3] (-1 : Int) (7 : ℕ) = [1, 2, 3] ∧
        remove [1, 2, 3] (-1 : Int) = [1, 2, 3]) :=
  ⟨by decide, update_remove_invalid_index_identity [1, 2, 3] (-1) 7 (by decide)⟩

/-- Fixed list of format names shared by both source variants. -/
def availableFormats : List String := ["hex", "rgb", "hsl", "lch"]

/-- State of the useValueRotation hook in both variants: the fixed value
list and the current index.  The index is an integer because the
part_000 variant can initialize it to -1 when Array.prototype.indexOf
finds no match. -/
structure ValueRotation (α : Type) where
  values : List α
  index : Int

/-- Embedding of rotate from useValueRotation in both variants:
setIndex((index) => (index + 1) % values.length).  For every index value
reachable in the application (all are at least -1) the JavaScript
remainder agrees with the Euclidean remainder used here, since the
dividend index + 1 is then nonnegative. -/
def rotate {α : Type} (s : ValueRotation α) : ValueRotation α :=
  { s with index := (s.index + 1) % (s.values.length : Int) }

/-- Embedding of the values[index] read returned by useValueRotation:
undefined (none) when the index falls outside the array. -/
def activeValue {α : Type} (s : ValueRotation α) : Option α :=
  if s.index < 0 then none else s.values[s.index.toNat]?

theorem rotate_values {α : Type} (s : ValueRotation α) : (rotate s).values = s.values :=
  rfl

theorem rotate_iterate_values {α : Type} (s : ValueRotation α) :
    ∀ k : ℕ, (rotate^[k] s).values = s.values := by
  intro k
  induction k with
  | zero => rfl
  | succ k ih => rw [Function.iterate_succ_apply', rotate_values, ih]

theorem rotate_iterate_index {α : Type} (s : ValueRotation α)
    (h2 : 0 ≤ s.index) (h3 : s.index < (s.values.length : Int)) :
    ∀ k : ℕ, (rotate^[k] s).index = (s.index + k) % (s.values.length : Int) := by
  intro k
  induction k with
  | zero =>
      simp only [Function.iterate_zero, id_eq, Nat.cast_zero, add_zero]
      exact (Int.emod_eq_of_lt h2 h3).symm
  | succ k ih =>
      rw [Function.iterate_succ_apply']
      show ((rotate^[k] s).index + 1) % ((rotate^[k] s).values.length : Int) = _
      rw [rotate_iterate_values s k, ih, Int.emod_add_emod]
      push_cast
      ring_nf

/-- Initial format selector shared by the claims: the format list with
index 0. -/
def formatSelector : ValueRotation String :=
  ValueRotation.mk availableFormats 0

/-- Claim C5: one rotation advances the index to (index + 1) mod length;
length successive rotations return to the original active value; and
from the initial format hex four rotations cycle through rgb, hsl, lch
and back to hex. -/
theorem rotate_cycle_spec {α : Type} (s : ValueRotation α)
    (h1 : s.values ≠ []) (h2 : 0 ≤ s.index) (h3 : s.index < (s.values.length : Int)) :
    (rotate s).index = (s.index + 1) % (s.values.length : Int) ∧
      activeValue (rotate^[s.values.length] s) = activeValue s ∧
      activeValue formatSelector = some "hex" ∧
      activeValue (rotate formatSelector) = some "rgb" ∧
      activeValue (rotate^[2] formatSelector) = some "hsl" ∧
      activeValue (rotate^[3] formatSelector) = some "lch" ∧
      activeValue (rotate^[4] formatSelector) = some "hex" := by
  refine ⟨rfl, ?_, rfl, rfl, rfl, rfl, rfl⟩
  have hidx : (rotate^[s.values.length] s).index = s.index := by
    rw [rotate_iterate_index s h2 h3 s.values.length]
    have he := Int.add_mul_emod_self_left s.index (s.values.length : Int) 1
    rw [Int.mul_one] at he
    rw [he, Int.emod_eq_of_lt h2 h3]
  simp only [activeValue, hidx, rotate_iterate_values]

/-- Claim C5 witness at the concrete initial format selector. -/
theorem rotate_cycle_spec_witness :
    (formatSelector.values ≠ [] ∧ 0 ≤ formatSelector.index ∧
        formatSelector.index < (formatSelector.values.length : Int)) ∧
      ((rotate formatSelector).index =
          (formatSelector.index + 1) % (formatSelector.values.length : Int) ∧
        activeValue (rotate^[formatSelector.values.length] formatSelector) =
          activeValue formatSelector ∧
        activeValue formatSelector = some "hex" ∧
        activeValue (rotate formatSelector) = some "rgb" ∧
        activeValue (rotate^[2] formatSelector) = some "hsl" ∧
        activeValue (rotate^[3] formatSelector) = some "lch" ∧
        activeValue (rotate^[4] formatSelector) = some "hex") :=
  ⟨⟨by decide, by decide, by decide⟩,
    rotate_cycle_spec formatSelector (by decide) (by decide) (by decide)⟩

/-- Embedding of Array.prototype.indexOf on the format list: the index of
the first occurrence, or -1 when the value does not occur. -/
def jsIndexOf (l : List String) (s : String) : Int :=
  match l.findIdx? (fun x => x == s) with
  | some i => (i : Int)
  | none => -1

/-- Embedding of the initial format index of src/src/script.jsx line 239:
storedFormat ? availableFormats.indexOf(storedFormat) : 0, where the
stored value is falsy when the key is absent (undefined) or holds the
empty string. -/
def initialFormatIndexGuarded (stored : Option String) : Int :=
  match stored with
  | none => 0
  | some s => if s = "" then 0 else jsIndexOf availableFormats s

/-- Embedding of the initial format index of src/unnamed/part_000 line
214: availableFormats.indexOf(storedFormat) with no guard, where an
absent key makes storedFormat undefined and indexOf(undefined) over a
string array returns -1. -/
def initialFormatIndexUnguarded (stored : Option String) : Int :=
  match stored with
  | none => -1
  | some s => jsIndexOf availableFormats s

/-- Claim C6, divergence between the two source variants: with the stored
format key absent, the script.jsx variant starts the selector at index 0
with active format hex, but the part_000 variant starts it at index -1,
whose active value is undefined (none), not hex. -/
theorem initialFormatIndex_divergence :
    initialFormatIndexGuarded none = 0 ∧
      activeValue (ValueRotation.mk availableFormats (initialFormatIndexGuarded none))
        = some "hex" ∧
      initialFormatIndexUnguarded none = -1 ∧
      activeValue (ValueRotation.mk availableFormats (initialFormatIndexUnguarded none))
        = none :=
  ⟨rfl, rfl, rfl, rfl⟩

/-- Embedding of the load half of useLocalStore (script.jsx) and
useLocalStored (part_000): storedValue ? JSON.parse(storedValue) :
undefined.  The platform JSON.parse is an external collaborator, so it is
passed in as a function that either returns a deserialized value or
fails, exactly as JSON.parse either returns or throws; the stored value
is falsy when the key is absent (null) or holds the empty string. -/
def useLocalStoreLoad {ε V : Type} (parse : String → Except ε V)
    (stored : Option String) : Except ε (Option V) :=
  match stored with
  | none => Except.ok none
  | some s => if s = "" then Except.ok none else Except.map some (parse s)

/-- Claim C3, counterexample: for a stored string that is not valid
serialized data (modelled by a parse that fails on it, as JSON.parse
throws on the string "not json"), the load propagates the failure instead
of returning the absent marker. -/
theorem useLocalStoreLoad_invalid_fails :
    useLocalStoreLoad (fun _ => (Except.error 0 : Except ℕ ℕ)) (some "not json")
        = Except.error 0 ∧
      useLocalStoreLoad (fun _ => (Except.error 0 : Except ℕ ℕ)) (some "not json")
        ≠ Except.ok none := by
  refine ⟨rfl, ?_⟩
  intro hcontra
  rw [show useLocalStoreLoad (fun _ => (Except.error 0 : Except ℕ ℕ)) (some "not json")
      = Except.error 0 from rfl] at hcontra
  exact Except.noConfusion hcontra

/-- Claim C3 as amended: the load returns the absent marker when the key
is missing or the stored string is empty, but for a non-empty stored
string on which the parse fails the load fails with that parse error
instead of returning absent. -/
theorem useLocalStoreLoad_behavior {ε V : Type} (parse : String → Except ε V)
    (s : String) (e : ε) (hne : s ≠ "") (hparse : parse s = Except.error e) :
    useLocalStoreLoad parse none = Except.ok none ∧
      useLocalStoreLoad parse (some "") = Except.ok none ∧
      useLocalStoreLoad parse (some s) = Except.error e := by
  refine ⟨rfl, ?_, ?_⟩
  · simp [useLocalStoreLoad]
  · simp [useLocalStoreLoad, hne, hparse, Except.map]

/-- Claim C3 witness at a concrete always-failing parse and a concrete
non-empty stored string. -/
theorem useLocalStoreLoad_behavior_witness :
    (("oops" : String) ≠ "" ∧
        (fun _ : String => (Except.error 0 : Except ℕ ℕ)) "oops" = Except.error 0) ∧
      (useLocalStoreLoad (fun _ => (Except.error 0 : Except ℕ ℕ)) none = Except.ok none ∧
        useLocalStoreLoad (fun _ => (Except.error 0 : Except ℕ ℕ)) (some "")
          = Except.ok none ∧
        useLocalStoreLoad (fun _ => (Except.error 0 : Except ℕ ℕ)) (some "oops")
          = Except.error 0) :=
  ⟨⟨by decide, rfl⟩, useLocalStoreLoad_behavior _ "oops" 0 (by decide) rfl⟩

/-- An sRGB color with channel values nominally in [0, 1]. -/
structure RGBColor where
  r : ℝ
  g : ℝ
  b : ℝ

/-- Modelled from the spec: the colorjs.io contrast routine used by
useContrastingColor is an external collaborator; the spec names the WCAG
2.1 relative-luminance contrast ratio, whose sRGB channel linearization
this is. -/
noncomputable def linearize (x : ℝ) : ℝ :=
  if x ≤ 0.04045 then x / 12.92 else ((x + 0.055) / 1.055) ^ (2.4 : ℝ)

/-- WCAG 2.1 relative luminance of an sRGB color. -/
noncomputable def relativeLuminance (c : RGBColor) : ℝ :=
  0.2126 * linearize c.r + 0.7152 * linearize c.g + 0.0722 * linearize c.b

/-- WCAG 2.1 contrast ratio between two colors, in [1, 21]. -/
noncomputable def contrastWCAG21 (a b : RGBColor) : ℝ :=
  (max (relativeLuminance a) (relativeLuminance b) + 0.05) /
    (min (relativeLuminance a) (relativeLuminance b) + 0.05)

/-- The color white in sRGB. -/
def whiteRGB : RGBColor := ⟨1, 1, 1⟩

/-- The color black in sRGB. -/
def blackRGB : RGBColor := ⟨0, 0, 0⟩

/-- Embedding of useContrastingColor from both variants: black when the
WCAG 2.1 contrast of the background against black exceeds 4.5, white
otherwise. -/
noncomputable def useContrastingColor (bg : RGBColor) : String :=
  if contrastWCAG21 bg blackRGB > 4.5 then "black" else "white"

theorem linearize_zero : linearize 0 = 0 := by
  unfold linearize
  rw [if_pos (by norm_num)]
  norm_num

theorem linearize_one : linearize 1 = 1 := by
  unfold linearize
  rw [if_neg (by norm_num)]
  rw [show ((1 : ℝ) + 0.055) / 1.055 = 1 by norm_num]
  exact Real.one_rpow _

theorem relativeLuminance_white : relativeLuminance whiteRGB = 1 := by
  simp only [relativeLuminance, whiteRGB, linearize_one]
  norm_num

theorem relativeLuminance_black : relativeLuminance blackRGB = 0 := by
  simp only [relativeLuminance, blackRGB, linearize_zero]
  norm_num

theorem contrastWCAG21_white_black : contrastWCAG21 whiteRGB blackRGB = 21 := by
  unfold contrastWCAG21
  rw [relativeLuminance_white, relativeLuminance_black]
  rw [max_eq_left (by norm_num : (0 : ℝ) ≤ 1), min_eq_right (by norm_num : (0 : ℝ) ≤ 1)]
  norm_num

theorem contrastWCAG21_black_black : contrastWCAG21 blackRGB blackRGB = 1 := by
  unfold contrastWCAG21
  rw [relativeLuminance_black, max_self, min_self]
  norm_num

/-- Claim C4: the contrasting foreground is black whenever the WCAG 2.1
contrast of the background against black is above 4.5 and white whenever
it is below; in particular a white background gives black text and a
black background gives white text. -/
theorem useContrastingColor_spec (bg : RGBColor) :
    (contrastWCAG21 bg blackRGB > 4.5 → useContrastingColor bg = "black") ∧
      (contrastWCAG21 bg blackRGB < 4.5 → useContrastingColor bg = "white") ∧
      useContrastingColor whiteRGB = "black" ∧
      useContrastingColor blackRGB = "white" := by
  refine ⟨?_, ?_, ?_, ?_⟩
  · intro hgt
    unfold useContrastingColor
    rw [if_pos hgt]
  · intro hlt
    unfold useContrastingColor
    rw [if_neg (by linarith)]
  · unfold useContrastingColor
    rw [if_pos (by rw [contrastWCAG21_white_black]; norm_num)]
  · unfold useContrastingColor
    rw [if_neg (by rw [contrastWCAG21_black_black]; norm_num)]

/-- Claim C4 witness: the white background discharges the above-threshold
hypothesis, giving black text. -/
theorem useContrastingColor_spec_witness :
    contrastWCAG21 whiteRGB blackRGB > 4.5 ∧ useContrastingColor whiteRGB = "black" := by
  have hgt : contrastWCAG21 whiteRGB blackRGB > 4.5 := by
    rw [contrastWCAG21_white_black]
    norm_num
  exact ⟨hgt, (useContrastingColor_spec whiteRGB).1 hgt⟩

end Paletter
